import Mathlib

/-!
# FreeMDU diagnostic protocol core — verification development

Shallow embedding of the wire-protocol engine (`protocol/src/lib.rs`) and the
device-dispatch layer (`protocol/src/device.rs`, `protocol/src/device/id629.rs`,
`id419.rs`, `id324.rs`) of the FreeMDU library, together with theorems settling
the specification claims about framing, address extension, argument validation,
the id-629 program state machine, numeric helpers and interface state.

Bytes are modelled as `Nat` (machine `u8`/`u16`/`u32` values, with explicit
`% 256` / `% 65536` where the source casts).  The byte channel is modelled as a
pair of byte lists: the pending incoming bytes and the accumulated outgoing
bytes.  Fallible operations return `Except`.
-/

namespace FreeMDU

/-- Error type of `Interface` operations (`Error<E>` in `lib.rs`, without the
transport-specific `Io` variant, which the core never produces itself). -/
inductive ProtoErr where
  | invalidArgument
  | incorrectChecksum
  | invalidCommand
  | invalidResponse
  | unexpectedEof
deriving Repr, DecidableEq

/-- `compute_checksum`: unsigned 8-bit wrapping sum of the bytes
(`data.iter().map(Wrapping).sum()`). -/
def computeChecksum (data : List Nat) : Nat :=
  data.sum % 256

/-- Fuel-driven worker for `listChunks`; the fuel only bounds the recursion
depth (one unit per chunk suffices since every chunk is nonempty). -/
def listChunksF (m : Nat) : Nat → List Nat → List (List Nat)
  | _, [] => []
  | 0, _ :: _ => []
  | f + 1, a :: l => (a :: l).take (m + 1) :: listChunksF m f ((a :: l).drop (m + 1))

/-- Chunk decomposition of a byte list with chunk size `m + 1`
(Rust `slice::chunks(chunk_size)` with a positive chunk size). -/
def listChunks (m : Nat) (l : List Nat) : List (List Nat) :=
  listChunksF m l.length l

theorem listChunksF_congr (m : Nat) : ∀ (f1 f2 : Nat) (l : List Nat),
    l.length ≤ f1 → l.length ≤ f2 → listChunksF m f1 l = listChunksF m f2 l := by
  intro f1
  induction f1 with
  | zero =>
    intro f2 l h1 h2
    cases l with
    | nil => cases f2 <;> rfl
    | cons a l2 => simp at h1
  | succ f ih =>
    intro f2 l h1 h2
    cases l with
    | nil => cases f2 <;> rfl
    | cons a l2 =>
      cases f2 with
      | zero => simp at h2
      | succ f2 =>
        show (a :: l2).take (m + 1) :: listChunksF m f ((a :: l2).drop (m + 1))
          = (a :: l2).take (m + 1) :: listChunksF m f2 ((a :: l2).drop (m + 1))
        congr 1
        apply ih
        · simp only [List.length_drop, List.length_cons] at *
          omega
        · simp only [List.length_drop, List.length_cons] at *
          omega

theorem listChunks_cons (m a : Nat) (l : List Nat) :
    listChunks m (a :: l)
      = (a :: l).take (m + 1) :: listChunks m ((a :: l).drop (m + 1)) := by
  show (a :: l).take (m + 1) :: listChunksF m l.length ((a :: l).drop (m + 1))
    = (a :: l).take (m + 1) :: listChunksF m ((a :: l).drop (m + 1)).length ((a :: l).drop (m + 1))
  congr 1
  apply listChunksF_congr
  · simp only [List.length_drop, List.length_cons]
    omega
  · exact le_refl _

/-- Fuel-driven worker for `chunkSizes`. -/
def chunkSizesF (m : Nat) : Nat → Nat → List Nat
  | _, 0 => []
  | 0, _ + 1 => []
  | f + 1, n + 1 => min (m + 1) (n + 1) :: chunkSizesF m f (n + 1 - (m + 1))

/-- The chunk sizes produced by `slice::chunks_mut(m + 1)` on a buffer of
length `n` (used by `Interface::receive`, which only depends on the length). -/
def chunkSizes (m n : Nat) : List Nat :=
  chunkSizesF m n n

theorem chunkSizesF_congr (m : Nat) : ∀ (f1 f2 n : Nat),
    n ≤ f1 → n ≤ f2 → chunkSizesF m f1 n = chunkSizesF m f2 n := by
  intro f1
  induction f1 with
  | zero =>
    intro f2 n h1 h2
    cases n with
    | zero => cases f2 <;> rfl
    | succ k => simp at h1
  | succ f ih =>
    intro f2 n h1 h2
    cases n with
    | zero => cases f2 <;> rfl
    | succ k =>
      cases f2 with
      | zero => simp at h2
      | succ f2 =>
        show min (m + 1) (k + 1) :: chunkSizesF m f (k + 1 - (m + 1))
          = min (m + 1) (k + 1) :: chunkSizesF m f2 (k + 1 - (m + 1))
        congr 1
        apply ih <;> omega

theorem chunkSizes_succ (m n : Nat) :
    chunkSizes m (n + 1)
      = min (m + 1) (n + 1) :: chunkSizes m (n + 1 - (m + 1)) := by
  show min (m + 1) (n + 1) :: chunkSizesF m n (n + 1 - (m + 1))
    = min (m + 1) (n + 1) :: chunkSizesF m (n + 1 - (m + 1)) (n + 1 - (m + 1))
  congr 1
  apply chunkSizesF_congr <;> omega

/-- On-the-wire encoding of one chunk: the chunk bytes followed by the
single checksum byte. -/
def encodeChunk (c : List Nat) : List Nat :=
  c ++ [computeChecksum c]

/-- On-the-wire encoding of a list of chunks. -/
def encodeChunkList (cl : List (List Nat)) : List Nat :=
  cl.foldr (fun c acc => encodeChunk c ++ acc) []

/-- On-the-wire encoding of a whole payload at chunk size `m + 1`:
each chunk followed by its checksum byte, in order. -/
def encodePayload (m : Nat) (p : List Nat) : List Nat :=
  encodeChunkList (listChunks m p)

/-- `Interface::send`, at the level of a precomputed chunk list.  For each
chunk: write the chunk bytes and the checksum byte, then read one
acknowledgement byte (`0` success, `1` incorrect checksum, `2` invalid
command, anything else invalid response).  Returns the result, the bytes
written and the remaining input. -/
def sendChunkList : List (List Nat) → List Nat →
    Except ProtoErr Unit × List Nat × List Nat
  | [], inp => (.ok (), [], inp)
  | c :: cl, inp =>
    let wr := encodeChunk c
    match inp with
    | [] => (.error .unexpectedEof, wr, [])
    | ack :: inp' =>
      if ack = 0 then
        match sendChunkList cl inp' with
        | (r, w, rest) => (r, wr ++ w, rest)
      else if ack = 1 then (.error .incorrectChecksum, wr, inp')
      else if ack = 2 then (.error .invalidCommand, wr, inp')
      else (.error .invalidResponse, wr, inp')

/-- `Interface::receive`, at the level of the chunk-size list.  For each chunk
size: read that many bytes and one checksum byte, verify the checksum, and
acknowledge with a `0` byte.  Returns the reassembled payload, the bytes
written (the acknowledgements) and the remaining input. -/
def receiveSizes : List Nat → List Nat →
    Except ProtoErr (List Nat) × List Nat × List Nat
  | [], inp => (.ok [], [], inp)
  | k :: ks, inp =>
    if inp.length < k then (.error .unexpectedEof, [], [])
    else
      let chunk := inp.take k
      match inp.drop k with
      | [] => (.error .unexpectedEof, [], [])
      | cks :: inp' =>
        if cks = computeChecksum chunk then
          match receiveSizes ks inp' with
          | (r, w, rest) =>
            (match r with
             | .ok p => .ok (chunk ++ p)
             | .error e => .error e, 0 :: w, rest)
        else (.error .incorrectChecksum, [], inp')

/-- `Interface::send` of a payload at chunk size `cs` (positive). -/
def sendPayloadRun (cs : Nat) (p inp : List Nat) :
    Except ProtoErr Unit × List Nat × List Nat :=
  sendChunkList (listChunks (cs - 1) p) inp

/-- `Interface::receive` of an `n`-byte payload at chunk size `cs` (positive). -/
def receivePayloadRun (cs n : Nat) (inp : List Nat) :
    Except ProtoErr (List Nat) × List Nat × List Nat :=
  receiveSizes (chunkSizes (cs - 1) n) inp

/-- Number of chunks a payload is split into at chunk size `cs`. -/
def chunkCount (cs : Nat) (p : List Nat) : Nat :=
  (listChunks (cs - 1) p).length

theorem listChunks_join_bounded (m : Nat) : ∀ (n : Nat) (p : List Nat),
    p.length ≤ n → (listChunks m p).foldr (· ++ ·) [] = p := by
  intro n
  induction n with
  | zero =>
    intro p hp
    cases p with
    | nil => rfl
    | cons a l => simp at hp
  | succ n ih =>
    intro p hp
    cases p with
    | nil => rfl
    | cons a l =>
      rw [listChunks_cons]
      simp only [List.foldr_cons]
      rw [ih ((a :: l).drop (m + 1)) (by simp only [List.length_drop]; simp at hp ⊢; omega)]
      exact List.take_append_drop _ _

theorem listChunks_join (m : Nat) (p : List Nat) :
    (listChunks m p).foldr (· ++ ·) [] = p :=
  listChunks_join_bounded m p.length p (le_refl _)

theorem chunkSizes_eq_bounded (m : Nat) : ∀ (n : Nat) (p : List Nat),
    p.length ≤ n → chunkSizes m p.length = (listChunks m p).map List.length := by
  intro n
  induction n with
  | zero =>
    intro p hp
    cases p with
    | nil => rfl
    | cons a l => simp at hp
  | succ n ih =>
    intro p hp
    cases p with
    | nil => rfl
    | cons a l =>
      have h1 : (a :: l).length = l.length + 1 := rfl
      have h2 : ((a :: l).drop (m + 1)).length = l.length + 1 - (m + 1) := by
        simp
      rw [listChunks_cons, h1, chunkSizes_succ, List.map_cons, List.length_take, h1,
        ← h2, ih ((a :: l).drop (m + 1)) (by rw [h2]; simp at hp; omega)]

theorem chunkSizes_eq (m : Nat) (p : List Nat) :
    chunkSizes m p.length = (listChunks m p).map List.length :=
  chunkSizes_eq_bounded m p.length p (le_refl _)

theorem sendChunkList_ok (cl : List (List Nat)) (rest : List Nat) :
    sendChunkList cl (List.replicate cl.length 0 ++ rest)
      = (.ok (), encodeChunkList cl, rest) := by
  induction cl with
  | nil => simp [sendChunkList, encodeChunkList]
  | cons c cl ih =>
    simp only [List.length_cons, List.replicate_succ, List.cons_append, sendChunkList,
      if_pos rfl, ih, encodeChunkList]
    simp

theorem receiveSizes_ok (cl : List (List Nat)) (rest : List Nat) :
    receiveSizes (cl.map List.length) (encodeChunkList cl ++ rest)
      = (.ok (cl.foldr (· ++ ·) []), List.replicate cl.length 0, rest) := by
  induction cl with
  | nil => simp [receiveSizes, encodeChunkList]
  | cons c cl ih =>
    have harr : encodeChunkList (c :: cl) ++ rest
        = c ++ ([computeChecksum c] ++ (encodeChunkList cl ++ rest)) := by
      simp [encodeChunkList, encodeChunk]
    rw [List.map_cons, receiveSizes, harr]
    have htake : (c ++ ([computeChecksum c] ++ (encodeChunkList cl ++ rest))).take c.length
        = c := List.take_left ..
    have hdrop : (c ++ ([computeChecksum c] ++ (encodeChunkList cl ++ rest))).drop c.length
        = [computeChecksum c] ++ (encodeChunkList cl ++ rest) := List.drop_left ..
    have hlen : ¬ (c ++ ([computeChecksum c] ++ (encodeChunkList cl ++ rest))).length
        < c.length := by
      simp
    rw [if_neg hlen, htake, hdrop]
    simp only [List.singleton_append, if_pos rfl, ih]
    simp [List.replicate_succ]

/-- **C1 core lemma**, receive direction: if the incoming stream holds, for
each chunk of `p`, the chunk bytes followed by the 8-bit sum checksum, then
`Interface::receive` of `p.length` bytes returns exactly `p`, writes one
`Success` (`0`) acknowledgement per chunk and consumes exactly the encoding. -/
theorem receivePayloadRun_ok (cs : Nat) (p rest : List Nat) :
    receivePayloadRun cs p.length (encodePayload (cs - 1) p ++ rest)
      = (.ok p, List.replicate (chunkCount cs p) 0, rest) := by
  rw [receivePayloadRun, chunkSizes_eq, encodePayload, receiveSizes_ok,
    listChunks_join, chunkCount]

/-- **C1 core lemma**, send direction: if the peer acknowledges every chunk
with `Success` (`0`), `Interface::send` of `p` writes exactly the
chunk-plus-checksum encoding of `p` and consumes one acknowledgement byte per
chunk. -/
theorem sendPayloadRun_ok (cs : Nat) (p rest : List Nat) :
    sendPayloadRun cs p (List.replicate (chunkCount cs p) 0 ++ rest)
      = (.ok (), encodePayload (cs - 1) p, rest) := by
  rw [sendPayloadRun, chunkCount, sendChunkList_ok, encodePayload]

/-! ## Protocol interface state and operations -/

/-- State of an `Interface<P>` together with its byte channel: the current
`chunk_size` field, the dummy-byte mode flag, the pending incoming bytes and
the accumulated outgoing bytes.

The `dummyBytes` flag is *Modelled from the spec*: `Interface::enable_dummy_bytes`
and its backing field are not part of `lib.rs` as provided (only its caller in
`id419.rs` is); the spec describes it as "a boolean on the interface set by
`enable_dummy_bytes()`" that prepends an inert preamble to every outgoing
command frame.  `Interface::new` in `lib.rs` initialises `chunk_size` to 4. -/
structure IntfState where
  chunkSize : Nat
  dummyBytes : Bool
  input : List Nat
  output : List Nat
deriving Repr, DecidableEq

/-- The interface state right after `Interface::new`: chunk size 4, dummy-byte
mode off, nothing written. -/
def initIntfState (inp : List Nat) : IntfState :=
  ⟨4, false, inp, []⟩

/-- Serialisation of a `Request { cmd, param, len }` into its 4-byte header
`[cmd, param_lo, param_hi, length]` (`From<Request> for Payload<4>`). -/
def requestBytes (cmd param len : Nat) : List Nat :=
  [cmd, param % 256, param / 256 % 256, len]

/-- `Interface::send` acting on the interface state. -/
def stSend (s : IntfState) (p : List Nat) : Except ProtoErr Unit × IntfState :=
  match sendPayloadRun s.chunkSize p s.input with
  | (r, w, rest) => (r, { s with input := rest, output := s.output ++ w })

/-- Bytes of the inert dummy preamble.  *Modelled from the spec*: the spec
describes "a short inert byte run" prepended to command frames in dummy-byte
mode but does not fix its contents; a single inert `0x00` byte stands for it. -/
def dummyPreamble : List Nat := [0x00]

/-- Transmission of one command frame: `self.send(Request::new(..).into())`.
When the dummy-byte mode is active, the inert preamble is written before the
framed request (*modelled from the spec*, see `IntfState.dummyBytes`). -/
def stSendRequest (s : IntfState) (cmd param len : Nat) :
    Except ProtoErr Unit × IntfState :=
  let s' := if s.dummyBytes then { s with output := s.output ++ dummyPreamble } else s
  stSend s' (requestBytes cmd param len)

/-- `Interface::receive` of an `n`-byte payload acting on the interface state. -/
def stReceive (s : IntfState) (n : Nat) :
    Except ProtoErr (List Nat) × IntfState :=
  match receivePayloadRun s.chunkSize n s.input with
  | (r, w, rest) => (r, { s with input := rest, output := s.output ++ w })

/-- A raw one-byte read from the port (`self.read(&mut [0x00])`), as used by
`jump_to_subroutine`: no checksum, no acknowledgement. -/
def stReadByte (s : IntfState) : Except ProtoErr Nat × IntfState :=
  match s.input with
  | [] => (.error .unexpectedEof, { s with input := [] })
  | b :: rest => (.ok b, { s with input := rest })

/-- Sequencing of two fallible interface steps (`?` propagation). -/
def bindOp (x : Except ProtoErr α × IntfState)
    (f : α → IntfState → Except ProtoErr β × IntfState) :
    Except ProtoErr β × IntfState :=
  match x with
  | (.ok a, s) => f a s
  | (.error e, s) => (.error e, s)

/-- `Interface::read_memory::<[u8; n], n>(addr)`: reject `n > 65535`, send the
one-shot `ExtendAddress` header when `addr > 0xffff` or `n > 0xff`, send the
`ReadMemory` header with the low address/length bits, then receive `n` bytes. -/
def readMemoryRun (addr n : Nat) (s : IntfState) :
    Except ProtoErr (List Nat) × IntfState :=
  if n > 65535 then (.error .invalidArgument, s)
  else
    bindOp
      (if addr > 0xffff ∨ n > 0xff then
        stSendRequest s 0x37 (addr >>> 16 % 65536) (n >>> 8 % 256)
      else (.ok (), s)) fun _ s1 =>
    bindOp (stSendRequest s1 0x30 (addr % 65536) (n % 256)) fun _ s2 =>
    stReceive s2 n

/-- `Interface::write_memory(addr, payload)`: reject `payload.length > 65535`,
optionally extend the address, send the `WriteMemory` header, then send the
data payload (a data frame, not a command frame). -/
def writeMemoryRun (addr : Nat) (p : List Nat) (s : IntfState) :
    Except ProtoErr Unit × IntfState :=
  if p.length > 65535 then (.error .invalidArgument, s)
  else
    bindOp
      (if addr > 0xffff ∨ p.length > 0xff then
        stSendRequest s 0x37 (addr >>> 16 % 65536) (p.length >>> 8 % 256)
      else (.ok (), s)) fun _ s1 =>
    bindOp (stSendRequest s1 0x40 (addr % 65536) (p.length % 256)) fun _ s2 =>
    stSend s2 p

/-- `Interface::read_eeprom::<[u8; n], n>(addr)`: reject `n > 255` (the length
is a `u8`), send the `ReadEeprom` header, then receive `n` bytes. -/
def readEepromRun (addr n : Nat) (s : IntfState) :
    Except ProtoErr (List Nat) × IntfState :=
  if n > 255 then (.error .invalidArgument, s)
  else
    bindOp (stSendRequest s 0x31 (addr % 65536) n) fun _ s1 =>
    stReceive s1 n

/-- `Interface::write_eeprom(addr, payload)`: reject `payload.length > 255`,
send the `WriteEeprom` header, then send the data payload. -/
def writeEepromRun (addr : Nat) (p : List Nat) (s : IntfState) :
    Except ProtoErr Unit × IntfState :=
  if p.length > 255 then (.error .invalidArgument, s)
  else
    bindOp (stSendRequest s 0x41 (addr % 65536) p.length) fun _ s1 =>
    stSend s1 p

/-- `Interface::jump_to_subroutine(addr)`: optional address extension, the
`JumpToSubroutine` header, then one raw response byte once the subroutine
returns. -/
def jumpToSubroutineRun (addr : Nat) (s : IntfState) :
    Except ProtoErr Unit × IntfState :=
  bindOp
    (if addr > 0xffff then stSendRequest s 0x37 (addr >>> 16 % 65536) 0x00
     else (.ok (), s)) fun _ s1 =>
  bindOp (stSendRequest s1 0x42 (addr % 65536) 0x00) fun _ s2 =>
  match stReadByte s2 with
  | (.ok _, s3) => (.ok (), s3)
  | (.error e, s3) => (.error e, s3)

/-- `Interface::query_software_id`: send the header, receive 2 bytes, decode
them as a little-endian `u16`. -/
def querySoftwareIdRun (s : IntfState) : Except ProtoErr Nat × IntfState :=
  bindOp (stSendRequest s 0x11 0x0000 0x02) fun _ s1 =>
  match stReceive s1 2 with
  | (.ok bs, s2) => (.ok (bs.headD 0 + 256 * (bs.drop 1).headD 0), s2)
  | (.error e, s2) => (.error e, s2)

/-- `Interface::query_max_baud_rate`: send the header, receive 2 bytes, parse
the *second* byte as a `BaudRate` discriminant (0‥6); any other value is
`InvalidResponse`. -/
def queryMaxBaudRateRun (s : IntfState) : Except ProtoErr Nat × IntfState :=
  bindOp (stSendRequest s 0x38 0x0000 0x02) fun _ s1 =>
  match stReceive s1 2 with
  | (.ok bs, s2) =>
    if (bs.drop 1).headD 0 ≤ 6 then (.ok ((bs.drop 1).headD 0), s2)
    else (.error .invalidResponse, s2)
  | (.error e, s2) => (.error e, s2)

/-- `Interface::set_baud_rate(rate)` for a baud-rate discriminant 0‥6: the
legacy single-frame fast path for 2400/9600, otherwise the `SetBaudRate`
command followed by a one-byte framed echo that is discarded. -/
def setBaudRateRun (rate : Nat) (s : IntfState) :
    Except ProtoErr Unit × IntfState :=
  if rate = 0 then stSendRequest s 0x46 0x0000 0x00
  else if rate = 1 then stSendRequest s 0x47 0x0000 0x00
  else
    bindOp (stSendRequest s 0x4b rate 0x01) fun _ s1 =>
    match stReceive s1 1 with
    | (.ok _, s2) => (.ok (), s2)
    | (.error e, s2) => (.error e, s2)

/-- `Interface::set_chunk_size(size)`: send the command, receive the one-byte
framed echo and store it as the new `chunk_size`.  On a receive error the
field is left unchanged (`?` returns before the assignment). -/
def setChunkSizeRun (size : Nat) (s : IntfState) :
    Except ProtoErr Unit × IntfState :=
  bindOp (stSendRequest s 0x4a (size % 65536) 0x01) fun _ s1 =>
  match stReceive s1 1 with
  | (.ok bs, s2) => (.ok (), { s2 with chunkSize := bs.headD 0 })
  | (.error e, s2) => (.error e, s2)

/-- `Interface::send_smart_home_request(cmd, payload)` expecting an `m`-byte
response: reject `payload.length > 255`, send the header and the data payload,
then receive `m` bytes. -/
def sendSmartHomeRequestRun (cmd : Nat) (p : List Nat) (m : Nat)
    (s : IntfState) : Except ProtoErr (List Nat) × IntfState :=
  if p.length > 255 then (.error .invalidArgument, s)
  else
    bindOp (stSendRequest s 0x85 (cmd % 65536) p.length) fun _ s1 =>
    bindOp (stSend s1 p) fun _ s2 =>
    stReceive s2 m

/-- `Interface::enable_dummy_bytes`.  *Modelled from the spec*: the method is
absent from `lib.rs` as provided (only its caller in `id419.rs` is present);
the spec specifies it as a driver-requested mode switch implemented as a
boolean on the interface. -/
def enableDummyBytesRun (s : IntfState) : Except ProtoErr Unit × IntfState :=
  (.ok (), { s with dummyBytes := true })

/-- The public operations of `Interface`, with their arguments. -/
inductive IntfOp where
  | lock
  | querySoftwareId
  | unlockReadAccess (key : Nat)
  | unlockSmartHomeAccess
  | readMemory (addr n : Nat)
  | readEeprom (addr n : Nat)
  | queryMaxBaudRate
  | unlockFullAccess (key : Nat)
  | writeMemory (addr : Nat) (p : List Nat)
  | writeEeprom (addr : Nat) (p : List Nat)
  | jumpToSubroutine (addr : Nat)
  | halt
  | setBaudRate (rate : Nat)
  | setChunkSize (size : Nat)
  | reset
  | sendSmartHomeRequest (cmd : Nat) (p : List Nat) (m : Nat)
  | enableDummyBytes
deriving Repr, DecidableEq

/-- Untyped result of an interface operation, for uniform statements. -/
inductive OpOut where
  | unit
  | num (n : Nat)
  | bytes (bs : List Nat)
deriving Repr, DecidableEq

/-- Uniform runner for all `Interface` operations. -/
def runOp : IntfOp → IntfState → Except ProtoErr OpOut × IntfState
  | .lock, s =>
    bindOp (stSendRequest s 0x10 0x0000 0x00) fun _ s1 => (.ok .unit, s1)
  | .querySoftwareId, s =>
    bindOp (querySoftwareIdRun s) fun v s1 => (.ok (.num v), s1)
  | .unlockReadAccess key, s =>
    bindOp (stSendRequest s 0x20 (key % 65536) 0x00) fun _ s1 => (.ok .unit, s1)
  | .unlockSmartHomeAccess, s =>
    bindOp (stSendRequest s 0x21 0x0000 0x00) fun _ s1 => (.ok .unit, s1)
  | .readMemory addr n, s =>
    bindOp (readMemoryRun addr n s) fun bs s1 => (.ok (.bytes bs), s1)
  | .readEeprom addr n, s =>
    bindOp (readEepromRun addr n s) fun bs s1 => (.ok (.bytes bs), s1)
  | .queryMaxBaudRate, s =>
    bindOp (queryMaxBaudRateRun s) fun v s1 => (.ok (.num v), s1)
  | .unlockFullAccess key, s =>
    bindOp (stSendRequest s 0x32 (key % 65536) 0x00) fun _ s1 => (.ok .unit, s1)
  | .writeMemory addr p, s =>
    bindOp (writeMemoryRun addr p s) fun _ s1 => (.ok .unit, s1)
  | .writeEeprom addr p, s =>
    bindOp (writeEepromRun addr p s) fun _ s1 => (.ok .unit, s1)
  | .jumpToSubroutine addr, s =>
    bindOp (jumpToSubroutineRun addr s) fun _ s1 => (.ok .unit, s1)
  | .halt, s =>
    bindOp (stSendRequest s 0x45 0x0000 0x00) fun _ s1 => (.ok .unit, s1)
  | .setBaudRate rate, s =>
    bindOp (setBaudRateRun rate s) fun _ s1 => (.ok .unit, s1)
  | .setChunkSize size, s =>
    bindOp (setChunkSizeRun size s) fun _ s1 => (.ok .unit, s1)
  | .reset, s =>
    bindOp (stSendRequest s 0x4e 0x0000 0x00) fun _ s1 => (.ok .unit, s1)
  | .sendSmartHomeRequest cmd p m, s =>
    bindOp (sendSmartHomeRequestRun cmd p m s) fun bs s1 => (.ok (.bytes bs), s1)
  | .enableDummyBytes, s =>
    bindOp (enableDummyBytesRun s) fun _ s1 => (.ok .unit, s1)

/-! ## Device layer: errors, values, numeric helpers -/

/-- Error type of `Device` operations (`device::Error<E>`). -/
inductive DevErr where
  | unknownSoftwareId (id : Nat)
  | invalidArgument
  | invalidState
  | unexpectedMemoryValue
  | unknownProperty
  | unknownAction
  | protocol (e : ProtoErr)
deriving Repr, DecidableEq

/-- Tagged `device::Value` variant (durations in seconds). -/
inductive Value where
  | bool (b : Bool)
  | number (n : Nat)
  | sensor (current target : Nat)
  | str (s : String)
  | duration (secs : Nat)
  | date (year month day : Nat)
deriving Repr, DecidableEq

/-- Lifting of a protocol-level step result into the device error type
(`From<ProtocolError<E>> for Error<E>`). -/
def liftProto (x : Except ProtoErr α × IntfState) :
    Except DevErr α × IntfState :=
  match x with
  | (.ok a, s) => (.ok a, s)
  | (.error e, s) => (.error (.protocol e), s)

/-- `utils::decode_bcd_value` loop: while `val > 0`, take the low nibble, add
`digit * mul` when the nibble is at most 9, multiply `mul` by 10 and shift
`val` right by 4 bits. -/
def decodeBcdGo (val mul res : Nat) : Nat :=
  if h : val = 0 then res
  else
    decodeBcdGo (val / 16) (mul * 10)
      (res + (if val % 16 ≤ 9 then val % 16 * mul else 0))
termination_by val
decreasing_by exact Nat.div_lt_self (Nat.pos_of_ne_zero h) (by norm_num)

/-- `utils::decode_bcd_value`. -/
def decodeBcdValue (val : Nat) : Nat :=
  decodeBcdGo val 1 0

/-- `utils::ntc_resistance_from_adc`: resistance in ohms from an 8-bit ADC
reading through the 2.15 kΩ divider (`(2150 * val) / (256 - val)`). -/
def ntcResistanceFromAdc (v : Nat) : Nat :=
  2150 * v / (256 - v)

/-- `utils::decode_mc14489_digit`: the two parallel MC14489 seven-segment
tables keyed by the 4-bit digit code and the "special" flag. -/
def decodeMc14489Digit (code : Nat) (special : Bool) : Option Char :=
  match code, special with
  | 0x00, false => some '0'
  | 0x01, false => some '1'
  | 0x02, false => some '2'
  | 0x03, false => some '3'
  | 0x04, false => some '4'
  | 0x05, false => some '5'
  | 0x06, false => some '6'
  | 0x07, false => some '7'
  | 0x08, false => some '8'
  | 0x09, false => some '9'
  | 0x0a, false => some 'A'
  | 0x0b, false => some 'b'
  | 0x0c, false => some 'C'
  | 0x0d, false => some 'd'
  | 0x0e, false => some 'E'
  | 0x0f, false => some 'F'
  | 0x01, true => some 'c'
  | 0x02, true => some 'H'
  | 0x03, true => some 'h'
  | 0x04, true => some 'J'
  | 0x05, true => some 'L'
  | 0x06, true => some 'n'
  | 0x07, true => some 'o'
  | 0x08, true => some 'P'
  | 0x09, true => some 'r'
  | 0x0a, true => some 'U'
  | 0x0b, true => some 'u'
  | 0x0c, true => some 'y'
  | 0x0d, true => some '-'
  | 0x0e, true => some '='
  | 0x0f, true => some '°'
  | _, _ => none

/-- `utils::rpm_from_motor_speed`: `0x0000` and `0xffff` mean "no speed" and
map to `some 0`; otherwise `442500 / s` is converted to a `u16`
(`try_into().ok()`), which yields `none` when the quotient exceeds 65535. -/
def rpmFromMotorSpeed (speed : Nat) : Option Nat :=
  if speed = 0x0000 ∨ speed = 0xffff then some 0
  else if 442500 / speed ≤ 65535 then some (442500 / speed) else none

/-! ## id629 washing-machine driver -/

/-- The `ProgramOption` bitflags of the id-629 driver: name and bit pattern. -/
def programOptionNames : List (String × Nat) :=
  [("Soak", 0x10), ("PreWash", 0x20), ("WaterPlus", 0x40), ("IntensiveShort", 0x80)]

/-- Splitting of a character list at every `'|'` (the separator itself is
dropped; empty components are kept). -/
def splitOnPipe : List Char → List (List Char)
  | [] => [[]]
  | c :: cs =>
    match splitOnPipe cs with
    | [] => [[]]
    | cur :: rest =>
      if c = '|' then [] :: cur :: rest else (c :: cur) :: rest

/-- Whitespace trimming of a character list at both ends. -/
def trimChars (l : List Char) : List Char :=
  ((l.dropWhile Char.isWhitespace).reverse.dropWhile Char.isWhitespace).reverse

/-- Flag-set parsing of a `Value::String` against a closed flag set.
*Modelled from the spec*: the `FromStr` implementation comes from the
`bitflags` parser via a derive crate outside `src/`; the spec specifies
`" | "`-separated names, case-sensitive, whitespace-trimmed, with unknown
names or empty components rejected as `InvalidArgument`.  The accepted flag
bits are combined with bitwise or. -/
def parseFlags (names : List (String × Nat)) (s : String) : Option Nat :=
  (splitOnPipe s.data).foldr
    (fun comp acc =>
      match acc with
      | none => none
      | some bits =>
        match names.find? (fun nb => nb.1.data = trimChars comp) with
        | some nb => some (bits ||| nb.2)
        | none => none)
    (some 0)

/-- The `SpinSetting` enumeration of the id-629 driver: name and discriminant
(`strum::EnumString` matches the exact variant name). -/
def spinSettingNames : List (String × Nat) :=
  [("WithoutSpin", 0), ("RinseHold", 1), ("SpinMin", 2), ("SpinLow", 3),
   ("SpinMed", 4), ("SpinHigh", 5), ("SpinMax", 6)]

/-- The three actions of the id-629 driver, plus a case for any action not in
its static table (`_ => Err(Error::UnknownAction)`). -/
inductive Id629Action where
  | setProgramOptions
  | setProgramSpinSetting
  | startProgram
  | unknown
deriving Repr, DecidableEq

/-- `WashingMachine::set_program_options` (id 629): write the option bits as
one byte to memory address `0x0058`. -/
def wmSetProgramOptions (bits : Nat) (s : IntfState) :
    Except DevErr Unit × IntfState :=
  liftProto (writeMemoryRun 0x0058 [bits % 256] s)

/-- `WashingMachine::set_program_spin_setting` (id 629): write the setting's
discriminant byte to memory address `0x0057`. -/
def wmSetProgramSpinSetting (v : Nat) (s : IntfState) :
    Except DevErr Unit × IntfState :=
  liftProto (writeMemoryRun 0x0057 [v % 256] s)

/-- `WashingMachine::start_program` (id 629): read the program state byte at
`0x00e7`; if it is `0x01` ("program selected and ready"), write `0x02` there,
otherwise return `InvalidState` without writing. -/
def wmStartProgram (s : IntfState) : Except DevErr Unit × IntfState :=
  match readMemoryRun 0x00e7 1 s with
  | (.ok bs, s1) =>
    if bs.headD 0 = 0x01 then liftProto (writeMemoryRun 0x00e7 [0x02] s1)
    else (.error .invalidState, s1)
  | (.error e, s1) => (.error (.protocol e), s1)

/-- `WashingMachine::trigger_action` (id 629): dispatch on the action, check
the parameter shape, parse string parameters against the declared closed set,
and run the corresponding write; mismatches are `InvalidArgument`, actions
outside the table are `UnknownAction`. -/
def wmTriggerAction (act : Id629Action) (param : Option Value)
    (s : IntfState) : Except DevErr Unit × IntfState :=
  match act with
  | .setProgramOptions =>
    match param with
    | some (.str str) =>
      match parseFlags programOptionNames str with
      | some bits => wmSetProgramOptions bits s
      | none => (.error .invalidArgument, s)
    | _ => (.error .invalidArgument, s)
  | .setProgramSpinSetting =>
    match param with
    | some (.str str) =>
      match spinSettingNames.find? (fun nb => nb.1 = str) with
      | some nb => wmSetProgramSpinSetting nb.2 s
      | none => (.error .invalidArgument, s)
    | _ => (.error .invalidArgument, s)
  | .startProgram =>
    match param with
    | none => wmStartProgram s
    | some _ => (.error .invalidArgument, s)
  | .unknown => (.error .unknownAction, s)

/-- `WashingMachine::query_display_contents` (id 629), decoding step: unpack
the three 4-bit digit codes, the three special bits and the 3-bit
decimal-point selector from the packed 32-bit word read at `0x009e`, decode
each digit through the MC14489 tables and collect the present characters. -/
def wmDecodeDisplay (display : Nat) : String :=
  let points := (display &&& 0x00700000) >>> 20
  let d1Code := display &&& 0x0000000f
  let d2Code := (display &&& 0x000000f0) >>> 4
  let d3Code := (display &&& 0x00000f00) >>> 8
  let d1Special := display &&& 0x02000000 ≠ 0
  let d2Special := display &&& 0x04000000 ≠ 0
  let d3Special := display &&& 0x08000000 ≠ 0
  let d1Point := points = 0x01 ∨ points = 0x07
  let d2Point := points = 0x02 ∨ points = 0x07
  let d3Point := points = 0x03 ∨ points = 0x07
  String.mk (([decodeMc14489Digit d1Code (decide d1Special),
    if d1Point then some '.' else none,
    decodeMc14489Digit d2Code (decide d2Special),
    if d2Point then some '.' else none,
    decodeMc14489Digit d3Code (decide d3Special),
    if d3Point then some '.' else none] : List (Option Char)).filterMap id)

/-! ## id419 washing-machine driver initialisation -/

/-- `WashingMachine::initialize` (id 419): enable the dummy-byte compatibility
mode, then unlock read access with key `0xb4ee` and full access with key
`0x4e83`. -/
def id419Initialize (s : IntfState) : Except DevErr Unit × IntfState :=
  liftProto <|
    bindOp (enableDummyBytesRun s) fun _ s1 =>
    bindOp (stSendRequest s1 0x20 (0xb4ee % 65536) 0x00) fun _ s2 =>
    stSendRequest s2 0x32 (0x4e83 % 65536) 0x00

/-! ## Happy-path evaluation lemmas -/

/-- The run of `Success` acknowledgement bytes a peer sends while the host
transmits payload `p` at chunk size `cs` (one per chunk). -/
def wireAcks (cs : Nat) (p : List Nat) : List Nat :=
  List.replicate (chunkCount cs p) 0

/-- The on-the-wire encoding of payload `p` at chunk size `cs`. -/
def frameEnc (cs : Nat) (p : List Nat) : List Nat :=
  encodePayload (cs - 1) p

/-- The preamble actually written before a command frame: the inert dummy run
when the dummy-byte mode is on, nothing otherwise. -/
def framePre (b : Bool) : List Nat :=
  if b then dummyPreamble else []

theorem stSend_ok (cs : Nat) (b : Bool) (p rest out : List Nat) :
    stSend ⟨cs, b, wireAcks cs p ++ rest, out⟩ p
      = (.ok (), ⟨cs, b, rest, out ++ frameEnc cs p⟩) := by
  simp only [stSend, wireAcks, frameEnc, sendPayloadRun_ok]

theorem stSendRequest_ok (cs : Nat) (b : Bool) (cmd param len : Nat)
    (rest out : List Nat) :
    stSendRequest ⟨cs, b, wireAcks cs (requestBytes cmd param len) ++ rest, out⟩
        cmd param len
      = (.ok (), ⟨cs, b, rest,
          out ++ framePre b ++ frameEnc cs (requestBytes cmd param len)⟩) := by
  cases b with
  | false => simpa [stSendRequest, framePre] using stSend_ok cs false _ rest out
  | true =>
    simpa [stSendRequest, framePre, List.append_assoc] using
      stSend_ok cs true (requestBytes cmd param len) rest (out ++ dummyPreamble)

theorem stReceive_ok (cs : Nat) (b : Bool) (data rest out : List Nat) :
    stReceive ⟨cs, b, frameEnc cs data ++ rest, out⟩ data.length
      = (.ok data, ⟨cs, b, rest, out ++ wireAcks cs data⟩) := by
  simp only [stReceive, wireAcks, frameEnc, receivePayloadRun_ok]

/-- The `ExtendAddress` (0x37) header frame emitted before an extended memory
operation: parameter `addr >> 16`, length byte `len >> 8` (after the `u16`
and `u8` casts). -/
def extendFrame (addr n : Nat) : List Nat :=
  requestBytes 0x37 (addr >>> 16 % 65536) (n >>> 8 % 256)

/-- The `ReadMemory` (0x30) header frame: low 16 address bits, low 8 length
bits. -/
def readMemFrame (addr n : Nat) : List Nat :=
  requestBytes 0x30 (addr % 65536) (n % 256)

/-- The `WriteMemory` (0x40) header frame: low 16 address bits, low 8 length
bits. -/
def writeMemFrame (addr n : Nat) : List Nat :=
  requestBytes 0x40 (addr % 65536) (n % 256)

theorem readMemoryRun_ok (cs : Nat) (b : Bool) (addr : Nat)
    (data rest out : List Nat) (hn : data.length ≤ 65535) :
    readMemoryRun addr data.length
      ⟨cs, b,
        (if addr > 0xffff ∨ data.length > 0xff then
          wireAcks cs (extendFrame addr data.length) else [])
        ++ wireAcks cs (readMemFrame addr data.length)
        ++ frameEnc cs data ++ rest, out⟩
      = (.ok data,
         ⟨cs, b, rest,
          out ++ (if addr > 0xffff ∨ data.length > 0xff then
            framePre b ++ frameEnc cs (extendFrame addr data.length) else [])
          ++ framePre b ++ frameEnc cs (readMemFrame addr data.length)
          ++ wireAcks cs data⟩) := by
  rw [readMemoryRun, if_neg (by omega)]
  by_cases hext : addr > 0xffff ∨ data.length > 0xff
  · rw [if_pos hext, if_pos hext, if_pos hext]
    rw [show (⟨cs, b,
        wireAcks cs (extendFrame addr data.length)
          ++ wireAcks cs (readMemFrame addr data.length)
          ++ frameEnc cs data ++ rest, out⟩ : IntfState)
      = ⟨cs, b, wireAcks cs (extendFrame addr data.length)
          ++ (wireAcks cs (readMemFrame addr data.length)
              ++ (frameEnc cs data ++ rest)), out⟩ by simp]
    rw [show extendFrame addr data.length
      = requestBytes 0x37 (addr >>> 16 % 65536) (data.length >>> 8 % 256) from rfl] at *
    rw [stSendRequest_ok]
    simp only [bindOp]
    rw [show readMemFrame addr data.length
        = requestBytes 0x30 (addr % 65536) (data.length % 256) from rfl,
      stSendRequest_ok]
    simp only [bindOp]
    rw [stReceive_ok]
    simp [List.append_assoc]
  · rw [if_neg hext, if_neg hext, if_neg hext]
    rw [show (⟨cs, b,
        [] ++ wireAcks cs (readMemFrame addr data.length)
           ++ frameEnc cs data ++ rest, out⟩ : IntfState)
      = ⟨cs, b, wireAcks cs (readMemFrame addr data.length)
          ++ (frameEnc cs data ++ rest), out⟩ by simp]
    simp only [bindOp]
    rw [show readMemFrame addr data.length
        = requestBytes 0x30 (addr % 65536) (data.length % 256) from rfl,
      stSendRequest_ok]
    simp only [bindOp]
    rw [stReceive_ok]
    simp [List.append_assoc]

theorem writeMemoryRun_ok (cs : Nat) (b : Bool) (addr : Nat)
    (p rest out : List Nat) (hn : p.length ≤ 65535) :
    writeMemoryRun addr p
      ⟨cs, b,
        (if addr > 0xffff ∨ p.length > 0xff then
          wireAcks cs (extendFrame addr p.length) else [])
        ++ wireAcks cs (writeMemFrame addr p.length)
        ++ wireAcks cs p ++ rest, out⟩
      = (.ok (),
         ⟨cs, b, rest,
          out ++ (if addr > 0xffff ∨ p.length > 0xff then
            framePre b ++ frameEnc cs (extendFrame addr p.length) else [])
          ++ framePre b ++ frameEnc cs (writeMemFrame addr p.length)
          ++ frameEnc cs p⟩) := by
  rw [writeMemoryRun, if_neg (by omega)]
  by_cases hext : addr > 0xffff ∨ p.length > 0xff
  · rw [if_pos hext, if_pos hext, if_pos hext]
    rw [show (⟨cs, b,
        wireAcks cs (extendFrame addr p.length)
          ++ wireAcks cs (writeMemFrame addr p.length)
          ++ wireAcks cs p ++ rest, out⟩ : IntfState)
      = ⟨cs, b, wireAcks cs (extendFrame addr p.length)
          ++ (wireAcks cs (writeMemFrame addr p.length)
              ++ (wireAcks cs p ++ rest)), out⟩ by simp]
    rw [show extendFrame addr p.length
      = requestBytes 0x37 (addr >>> 16 % 65536) (p.length >>> 8 % 256) from rfl] at *
    rw [stSendRequest_ok]
    simp only [bindOp]
    rw [show writeMemFrame addr p.length
        = requestBytes 0x40 (addr % 65536) (p.length % 256) from rfl,
      stSendRequest_ok]
    simp only [bindOp]
    rw [stSend_ok]
    simp [List.append_assoc]
  · rw [if_neg hext, if_neg hext, if_neg hext]
    rw [show (⟨cs, b,
        [] ++ wireAcks cs (writeMemFrame addr p.length)
           ++ wireAcks cs p ++ rest, out⟩ : IntfState)
      = ⟨cs, b, wireAcks cs (writeMemFrame addr p.length)
          ++ (wireAcks cs p ++ rest), out⟩ by simp]
    simp only [bindOp]
    rw [show writeMemFrame addr p.length
        = requestBytes 0x40 (addr % 65536) (p.length % 256) from rfl,
      stSendRequest_ok]
    simp only [bindOp]
    rw [stSend_ok]
    simp [List.append_assoc]

theorem readMemoryRun_ok_small (cs : Nat) (b : Bool) (addr : Nat)
    (data rest out : List Nat) (hext : ¬(addr > 0xffff ∨ data.length > 0xff)) :
    readMemoryRun addr data.length
      ⟨cs, b, wireAcks cs (readMemFrame addr data.length)
        ++ frameEnc cs data ++ rest, out⟩
      = (.ok data, ⟨cs, b, rest,
          out ++ framePre b ++ frameEnc cs (readMemFrame addr data.length)
            ++ wireAcks cs data⟩) := by
  have h := readMemoryRun_ok cs b addr data rest out (by omega)
  rw [if_neg hext, if_neg hext] at h
  simpa using h

theorem writeMemoryRun_ok_small (cs : Nat) (b : Bool) (addr : Nat)
    (p rest out : List Nat) (hext : ¬(addr > 0xffff ∨ p.length > 0xff)) :
    writeMemoryRun addr p
      ⟨cs, b, wireAcks cs (writeMemFrame addr p.length)
        ++ wireAcks cs p ++ rest, out⟩
      = (.ok (), ⟨cs, b, rest,
          out ++ framePre b ++ frameEnc cs (writeMemFrame addr p.length)
            ++ frameEnc cs p⟩) := by
  have h := writeMemoryRun_ok cs b addr p rest out (by omega)
  rw [if_neg hext, if_neg hext] at h
  simpa using h

theorem extendFrame_eq (addr n : Nat) (ha : addr < 4294967296)
    (hn : n ≤ 65535) :
    extendFrame addr n = requestBytes 0x37 (addr >>> 16) (n >>> 8) := by
  have h1 : addr >>> 16 % 65536 = addr >>> 16 :=
    Nat.mod_eq_of_lt (by rw [Nat.shiftRight_eq_div_pow]; omega)
  have h2 : n >>> 8 % 256 = n >>> 8 :=
    Nat.mod_eq_of_lt (by rw [Nat.shiftRight_eq_div_pow]; omega)
  rw [extendFrame, h1, h2]

/-! ## Claim theorems -/

/-- **C1** — Framing round-trip: for every payload `p` of length at most 65535
and every positive chunk size, if the peer's byte stream contains, for each
successive chunk of at most `chunk_size` bytes of `p`, the chunk bytes
followed by one byte equal to the 8-bit wrapping sum of that chunk, then
`Interface::receive` returns exactly `p` and transmits the `Success`
acknowledgement byte `0` after each verified chunk; conversely
`Interface::send` of `p` emits exactly those chunk-plus-checksum byte runs in
order, consuming one `Success` acknowledgement per chunk. -/
theorem c1_framing_roundtrip (cs : Nat) (p rest : List Nat)
    (hcs : 1 ≤ cs) (hlen : p.length ≤ 65535) :
    receivePayloadRun cs p.length (encodePayload (cs - 1) p ++ rest)
        = (.ok p, List.replicate (chunkCount cs p) 0, rest)
    ∧ sendPayloadRun cs p (List.replicate (chunkCount cs p) 0 ++ rest)
        = (.ok (), encodePayload (cs - 1) p, rest) :=
  ⟨receivePayloadRun_ok cs p rest, sendPayloadRun_ok cs p rest⟩

/-- Witness for `c1_framing_roundtrip` at chunk size 4 and payload
`[1, 2, 3, 4, 5]`. -/
theorem c1_framing_roundtrip_witness :
    receivePayloadRun 4 (List.length [1, 2, 3, 4, 5])
        (encodePayload 3 [1, 2, 3, 4, 5] ++ [9])
        = (.ok [1, 2, 3, 4, 5], List.replicate (chunkCount 4 [1, 2, 3, 4, 5]) 0, [9])
    ∧ sendPayloadRun 4 [1, 2, 3, 4, 5]
        (List.replicate (chunkCount 4 [1, 2, 3, 4, 5]) 0 ++ [9])
        = (.ok (), encodePayload 3 [1, 2, 3, 4, 5], [9]) :=
  c1_framing_roundtrip 4 [1, 2, 3, 4, 5] [9] (by decide) (by decide)

/-- **C2** — Address extension: for `read_memory`/`write_memory` with address
`addr` and payload length `len`, the `0x37` `ExtendAddress` header (with
parameter `addr >> 16` and length byte `len >> 8`) is transmitted before the
`0x30`/`0x40` header if and only if `addr > 0xFFFF` or `len > 255`, and the
`0x30`/`0x40` header carries the low 16 bits of the address and the low 8
bits of the length. -/
theorem c2_address_extension (cs addr : Nat) (data pload rest rest2 out out2 : List Nat)
    (hcs : 1 ≤ cs) (ha : addr < 4294967296)
    (hn : data.length ≤ 65535) (hp : pload.length ≤ 65535) :
    readMemoryRun addr data.length
      ⟨cs, false,
        (if addr > 0xffff ∨ data.length > 0xff then
          wireAcks cs (requestBytes 0x37 (addr >>> 16) (data.length >>> 8)) else [])
        ++ wireAcks cs (requestBytes 0x30 (addr % 65536) (data.length % 256))
        ++ frameEnc cs data ++ rest, out⟩
      = (.ok data,
         ⟨cs, false, rest,
          out ++ (if addr > 0xffff ∨ data.length > 0xff then
            frameEnc cs (requestBytes 0x37 (addr >>> 16) (data.length >>> 8)) else [])
          ++ frameEnc cs (requestBytes 0x30 (addr % 65536) (data.length % 256))
          ++ wireAcks cs data⟩)
    ∧ writeMemoryRun addr pload
      ⟨cs, false,
        (if addr > 0xffff ∨ pload.length > 0xff then
          wireAcks cs (requestBytes 0x37 (addr >>> 16) (pload.length >>> 8)) else [])
        ++ wireAcks cs (requestBytes 0x40 (addr % 65536) (pload.length % 256))
        ++ wireAcks cs pload ++ rest2, out2⟩
      = (.ok (),
         ⟨cs, false, rest2,
          out2 ++ (if addr > 0xffff ∨ pload.length > 0xff then
            frameEnc cs (requestBytes 0x37 (addr >>> 16) (pload.length >>> 8)) else [])
          ++ frameEnc cs (requestBytes 0x40 (addr % 65536) (pload.length % 256))
          ++ frameEnc cs pload⟩) := by
  constructor
  · have h := readMemoryRun_ok cs false addr data rest out hn
    rw [extendFrame_eq addr data.length ha hn] at h
    simpa [framePre, readMemFrame] using h
  · have h := writeMemoryRun_ok cs false addr pload rest2 out2 hp
    rw [extendFrame_eq addr pload.length ha hp] at h
    simpa [framePre, writeMemFrame] using h

/-- Witness for `c2_address_extension` at chunk size 4, the extended address
`0x1234ABCD` and one-byte payloads (the `ExtendAddress` branch is taken). -/
theorem c2_address_extension_witness :
    readMemoryRun 0x1234abcd (List.length [0x11])
      ⟨4, false,
        (if 0x1234abcd > 0xffff ∨ (List.length [0x11]) > 0xff then
          wireAcks 4 (requestBytes 0x37 (0x1234abcd >>> 16) ((List.length [0x11]) >>> 8))
         else [])
        ++ wireAcks 4 (requestBytes 0x30 (0x1234abcd % 65536) ((List.length [0x11]) % 256))
        ++ frameEnc 4 [0x11] ++ [7], []⟩
      = (.ok [0x11],
         ⟨4, false, [7],
          [] ++ (if 0x1234abcd > 0xffff ∨ (List.length [0x11]) > 0xff then
            frameEnc 4 (requestBytes 0x37 (0x1234abcd >>> 16) ((List.length [0x11]) >>> 8))
           else [])
          ++ frameEnc 4 (requestBytes 0x30 (0x1234abcd % 65536) ((List.length [0x11]) % 256))
          ++ wireAcks 4 [0x11]⟩)
    ∧ writeMemoryRun 0x1234abcd [0x22]
      ⟨4, false,
        (if 0x1234abcd > 0xffff ∨ (List.length [0x22]) > 0xff then
          wireAcks 4 (requestBytes 0x37 (0x1234abcd >>> 16) ((List.length [0x22]) >>> 8))
         else [])
        ++ wireAcks 4 (requestBytes 0x40 (0x1234abcd % 65536) ((List.length [0x22]) % 256))
        ++ wireAcks 4 [0x22] ++ [8], []⟩
      = (.ok (),
         ⟨4, false, [8],
          [] ++ (if 0x1234abcd > 0xffff ∨ (List.length [0x22]) > 0xff then
            frameEnc 4 (requestBytes 0x37 (0x1234abcd >>> 16) ((List.length [0x22]) >>> 8))
           else [])
          ++ frameEnc 4 (requestBytes 0x40 (0x1234abcd % 65536) ((List.length [0x22]) % 256))
          ++ frameEnc 4 [0x22]⟩) :=
  c2_address_extension 4 0x1234abcd [0x11] [0x22] [7] [8] [] []
    (by decide) (by decide) (by decide) (by decide)

/-! ## Invalid-argument and frame-effect analysis -/

theorem sendChunkList_fst_ne (cl : List (List Nat)) (inp : List Nat) :
    (sendChunkList cl inp).1 ≠ .error .invalidArgument := by
  induction cl generalizing inp with
  | nil => simp [sendChunkList]
  | cons c cl ih =>
    cases inp with
    | nil => simp [sendChunkList]
    | cons a inp' =>
      by_cases h0 : a = 0
      · rcases hx : sendChunkList cl inp' with ⟨r, w, rest⟩
        have hr := ih inp'
        rw [hx] at hr
        simp [sendChunkList, h0, hx]
        exact hr
      · simp only [sendChunkList, if_neg h0]
        split_ifs <;> simp

theorem receiveSizes_fst_ne (ks : List Nat) (inp : List Nat) :
    (receiveSizes ks inp).1 ≠ .error .invalidArgument := by
  induction ks generalizing inp with
  | nil => simp [receiveSizes]
  | cons k ks ih =>
    rw [receiveSizes]
    split
    · simp
    · split
      · simp
      · rename_i cks tail heq
        split
        rename_i w2 rest2 r heq2
        have hr := ih tail
        rw [heq2] at hr
        split
        · simp only []
          split <;> simp
        · simp at hr
          simp only []
          split <;> simp [hr]

theorem stSend_fst_ne (s : IntfState) (p : List Nat) :
    (stSend s p).1 ≠ .error .invalidArgument := by
  rcases hx : sendPayloadRun s.chunkSize p s.input with ⟨r, w, rest⟩
  have hr := sendChunkList_fst_ne (listChunks (s.chunkSize - 1) p) s.input
  rw [show sendChunkList (listChunks (s.chunkSize - 1) p) s.input
    = sendPayloadRun s.chunkSize p s.input from rfl, hx] at hr
  simpa [stSend, hx] using hr

theorem stSendRequest_fst_ne (s : IntfState) (cmd param len : Nat) :
    (stSendRequest s cmd param len).1 ≠ .error .invalidArgument := by
  rw [stSendRequest]
  split <;> apply stSend_fst_ne

theorem stReceive_fst_ne (s : IntfState) (n : Nat) :
    (stReceive s n).1 ≠ .error .invalidArgument := by
  rcases hx : receivePayloadRun s.chunkSize n s.input with ⟨r, w, rest⟩
  have hr := receiveSizes_fst_ne (chunkSizes (s.chunkSize - 1) n) s.input
  rw [show receiveSizes (chunkSizes (s.chunkSize - 1) n) s.input
    = receivePayloadRun s.chunkSize n s.input from rfl, hx] at hr
  simpa [stReceive, hx] using hr

theorem stReadByte_fst_ne (s : IntfState) :
    (stReadByte s).1 ≠ .error .invalidArgument := by
  rw [stReadByte]
  split <;> simp

theorem bindOp_eq_error {α β : Type} (x : Except ProtoErr α × IntfState)
    (f : α → IntfState → Except ProtoErr β × IntfState) (e : ProtoErr)
    (s' : IntfState) (h : bindOp x f = (.error e, s')) :
    x = (.error e, s') ∨ ∃ a s1, x = (.ok a, s1) ∧ f a s1 = (.error e, s') := by
  rcases x with ⟨r, s⟩
  cases r with
  | ok a => exact Or.inr ⟨a, s, rfl, h⟩
  | error e' =>
    have h' : ((Except.error e' : Except ProtoErr β), s) = (.error e, s') := by
      rw [← h]
      rfl
    have he : e' = e := by
      have h1 := congrArg Prod.fst h'
      simpa using h1
    have hs : s = s' := congrArg Prod.snd h'
    left
    rw [he, hs]

theorem readMemoryRun_invArg (addr n : Nat) (s s' : IntfState)
    (h : readMemoryRun addr n s = (.error .invalidArgument, s')) : s' = s := by
  rw [readMemoryRun] at h
  split at h
  · exact (congrArg Prod.snd h).symm
  · exfalso
    rcases bindOp_eq_error _ _ _ _ h with hx | ⟨a, s1, hx, hf⟩
    · revert hx
      split
      · intro hx
        exact stSendRequest_fst_ne _ _ _ _ (by rw [hx])
      · intro hx
        simp at hx
    · rcases bindOp_eq_error _ _ _ _ hf with hy | ⟨a2, s2, hy, hg⟩
      · exact stSendRequest_fst_ne _ _ _ _ (by rw [hy])
      · exact stReceive_fst_ne _ _ (by rw [hg])

theorem writeMemoryRun_invArg (addr : Nat) (p : List Nat) (s s' : IntfState)
    (h : writeMemoryRun addr p s = (.error .invalidArgument, s')) : s' = s := by
  rw [writeMemoryRun] at h
  split at h
  · exact (congrArg Prod.snd h).symm
  · exfalso
    rcases bindOp_eq_error _ _ _ _ h with hx | ⟨a, s1, hx, hf⟩
    · revert hx
      split
      · intro hx
        exact stSendRequest_fst_ne _ _ _ _ (by rw [hx])
      · intro hx
        simp at hx
    · rcases bindOp_eq_error _ _ _ _ hf with hy | ⟨a2, s2, hy, hg⟩
      · exact stSendRequest_fst_ne _ _ _ _ (by rw [hy])
      · exact stSend_fst_ne _ _ (by rw [hg])

theorem readEepromRun_invArg (addr n : Nat) (s s' : IntfState)
    (h : readEepromRun addr n s = (.error .invalidArgument, s')) : s' = s := by
  rw [readEepromRun] at h
  split at h
  · exact (congrArg Prod.snd h).symm
  · exfalso
    rcases bindOp_eq_error _ _ _ _ h with hx | ⟨a, s1, hx, hf⟩
    · exact stSendRequest_fst_ne _ _ _ _ (by rw [hx])
    · exact stReceive_fst_ne _ _ (by rw [hf])

theorem writeEepromRun_invArg (addr : Nat) (p : List Nat) (s s' : IntfState)
    (h : writeEepromRun addr p s = (.error .invalidArgument, s')) : s' = s := by
  rw [writeEepromRun] at h
  split at h
  · exact (congrArg Prod.snd h).symm
  · exfalso
    rcases bindOp_eq_error _ _ _ _ h with hx | ⟨a, s1, hx, hf⟩
    · exact stSendRequest_fst_ne _ _ _ _ (by rw [hx])
    · exact stSend_fst_ne _ _ (by rw [hf])

theorem sendSmartHomeRequestRun_invArg (cmd : Nat) (p : List Nat) (m : Nat)
    (s s' : IntfState)
    (h : sendSmartHomeRequestRun cmd p m s = (.error .invalidArgument, s')) :
    s' = s := by
  rw [sendSmartHomeRequestRun] at h
  split at h
  · exact (congrArg Prod.snd h).symm
  · exfalso
    rcases bindOp_eq_error _ _ _ _ h with hx | ⟨a, s1, hx, hf⟩
    · exact stSendRequest_fst_ne _ _ _ _ (by rw [hx])
    · rcases bindOp_eq_error _ _ _ _ hf with hy | ⟨a2, s2, hy, hg⟩
      · exact stSend_fst_ne _ _ (by rw [hy])
      · exact stReceive_fst_ne _ _ (by rw [hg])

theorem querySoftwareIdRun_not_invArg (s s' : IntfState)
    (h : querySoftwareIdRun s = (.error .invalidArgument, s')) : False := by
  rw [querySoftwareIdRun] at h
  rcases bindOp_eq_error _ _ _ _ h with hx | ⟨a, s1, hx, hf⟩
  · exact stSendRequest_fst_ne _ _ _ _ (by rw [hx])
  · rcases hr : stReceive s1 2 with ⟨r, s2⟩
    rw [hr] at hf
    cases r with
    | ok bs => simp at hf
    | error e =>
      simp at hf
      exact stReceive_fst_ne s1 2 (by rw [hr, hf.1])

theorem queryMaxBaudRateRun_not_invArg (s s' : IntfState)
    (h : queryMaxBaudRateRun s = (.error .invalidArgument, s')) : False := by
  rw [queryMaxBaudRateRun] at h
  rcases bindOp_eq_error _ _ _ _ h with hx | ⟨a, s1, hx, hf⟩
  · exact stSendRequest_fst_ne _ _ _ _ (by rw [hx])
  · rcases hr : stReceive s1 2 with ⟨r, s2⟩
    rw [hr] at hf
    cases r with
    | ok bs =>
      simp only at hf
      split at hf <;> simp at hf
    | error e =>
      simp at hf
      exact stReceive_fst_ne s1 2 (by rw [hr, hf.1])

theorem jumpToSubroutineRun_not_invArg (addr : Nat) (s s' : IntfState)
    (h : jumpToSubroutineRun addr s = (.error .invalidArgument, s')) : False := by
  rw [jumpToSubroutineRun] at h
  rcases bindOp_eq_error _ _ _ _ h with hx | ⟨a, s1, hx, hf⟩
  · revert hx
    split
    · intro hx
      exact stSendRequest_fst_ne _ _ _ _ (by rw [hx])
    · intro hx
      simp at hx
  · rcases bindOp_eq_error _ _ _ _ hf with hy | ⟨a2, s2, hy, hg⟩
    · exact stSendRequest_fst_ne _ _ _ _ (by rw [hy])
    · rcases hr : stReadByte s2 with ⟨r, s3⟩
      rw [hr] at hg
      cases r with
      | ok b => simp at hg
      | error e =>
        simp at hg
        exact stReadByte_fst_ne s2 (by rw [hr, hg.1])

theorem setBaudRateRun_not_invArg (rate : Nat) (s s' : IntfState)
    (h : setBaudRateRun rate s = (.error .invalidArgument, s')) : False := by
  rw [setBaudRateRun] at h
  revert h
  split
  · intro h
    exact stSendRequest_fst_ne _ _ _ _ (by rw [h])
  · split
    · intro h
      exact stSendRequest_fst_ne _ _ _ _ (by rw [h])
    · intro h
      rcases bindOp_eq_error _ _ _ _ h with hx | ⟨a, s1, hx, hf⟩
      · exact stSendRequest_fst_ne _ _ _ _ (by rw [hx])
      · rcases hr : stReceive s1 1 with ⟨r, s2⟩
        rw [hr] at hf
        cases r with
        | ok bs => simp at hf
        | error e =>
          simp at hf
          exact stReceive_fst_ne s1 1 (by rw [hr, hf.1])

theorem setChunkSizeRun_not_invArg (size : Nat) (s s' : IntfState)
    (h : setChunkSizeRun size s = (.error .invalidArgument, s')) : False := by
  rw [setChunkSizeRun] at h
  rcases bindOp_eq_error _ _ _ _ h with hx | ⟨a, s1, hx, hf⟩
  · exact stSendRequest_fst_ne _ _ _ _ (by rw [hx])
  · rcases hr : stReceive s1 1 with ⟨r, s2⟩
    rw [hr] at hf
    cases r with
    | ok bs => simp at hf
    | error e =>
      simp at hf
      exact stReceive_fst_ne s1 1 (by rw [hr, hf.1])

theorem liftProto_fst_ne {α : Type} (x : Except ProtoErr α × IntfState) :
    (liftProto x).1 ≠ .error DevErr.invalidArgument := by
  rcases x with ⟨r, s⟩
  cases r <;> simp [liftProto]

theorem wmStartProgram_fst_ne (s : IntfState) :
    (wmStartProgram s).1 ≠ .error DevErr.invalidArgument := by
  rw [wmStartProgram]
  split
  · split
    · exact liftProto_fst_ne _
    · simp
  · simp

/-- **C3** — Whenever any `Interface` operation or the id-629 driver's
`trigger_action` returns `InvalidArgument` (payload length above 65535 for
memory, above 255 for EEPROM or smart-home requests, missing or unparsable
action parameter), no byte at all has been written to the byte channel by
that call. -/
theorem c3_invalid_argument_writes_nothing :
    (∀ (op : IntfOp) (s s' : IntfState),
        runOp op s = (.error .invalidArgument, s') → s'.output = s.output)
    ∧ (∀ (act : Id629Action) (param : Option Value) (s s' : IntfState),
        wmTriggerAction act param s = (.error .invalidArgument, s') →
          s'.output = s.output) := by
  constructor
  · intro op s s' h
    cases op with
    | lock =>
      rcases bindOp_eq_error _ _ _ _ h with hx | ⟨a, s1, hx, hf⟩
      · exact (stSendRequest_fst_ne _ _ _ _ (by rw [hx])).elim
      · simp at hf
    | querySoftwareId =>
      rcases bindOp_eq_error _ _ _ _ h with hx | ⟨a, s1, hx, hf⟩
      · exact (querySoftwareIdRun_not_invArg _ _ hx).elim
      · simp at hf
    | unlockReadAccess key =>
      rcases bindOp_eq_error _ _ _ _ h with hx | ⟨a, s1, hx, hf⟩
      · exact (stSendRequest_fst_ne _ _ _ _ (by rw [hx])).elim
      · simp at hf
    | unlockSmartHomeAccess =>
      rcases bindOp_eq_error _ _ _ _ h with hx | ⟨a, s1, hx, hf⟩
      · exact (stSendRequest_fst_ne _ _ _ _ (by rw [hx])).elim
      · simp at hf
    | readMemory addr n =>
      rcases bindOp_eq_error _ _ _ _ h with hx | ⟨a, s1, hx, hf⟩
      · rw [readMemoryRun_invArg _ _ _ _ hx]
      · simp at hf
    | readEeprom addr n =>
      rcases bindOp_eq_error _ _ _ _ h with hx | ⟨a, s1, hx, hf⟩
      · rw [readEepromRun_invArg _ _ _ _ hx]
      · simp at hf
    | queryMaxBaudRate =>
      rcases bindOp_eq_error _ _ _ _ h with hx | ⟨a, s1, hx, hf⟩
      · exact (queryMaxBaudRateRun_not_invArg _ _ hx).elim
      · simp at hf
    | unlockFullAccess key =>
      rcases bindOp_eq_error _ _ _ _ h with hx | ⟨a, s1, hx, hf⟩
      · exact (stSendRequest_fst_ne _ _ _ _ (by rw [hx])).elim
      · simp at hf
    | writeMemory addr p =>
      rcases bindOp_eq_error _ _ _ _ h with hx | ⟨a, s1, hx, hf⟩
      · rw [writeMemoryRun_invArg _ _ _ _ hx]
      · simp at hf
    | writeEeprom addr p =>
      rcases bindOp_eq_error _ _ _ _ h with hx | ⟨a, s1, hx, hf⟩
      · rw [writeEepromRun_invArg _ _ _ _ hx]
      · simp at hf
    | jumpToSubroutine addr =>
      rcases bindOp_eq_error _ _ _ _ h with hx | ⟨a, s1, hx, hf⟩
      · exact (jumpToSubroutineRun_not_invArg _ _ _ hx).elim
      · simp at hf
    | halt =>
      rcases bindOp_eq_error _ _ _ _ h with hx | ⟨a, s1, hx, hf⟩
      · exact (stSendRequest_fst_ne _ _ _ _ (by rw [hx])).elim
      · simp at hf
    | setBaudRate rate =>
      rcases bindOp_eq_error _ _ _ _ h with hx | ⟨a, s1, hx, hf⟩
      · exact (setBaudRateRun_not_invArg _ _ _ hx).elim
      · simp at hf
    | setChunkSize size =>
      rcases bindOp_eq_error _ _ _ _ h with hx | ⟨a, s1, hx, hf⟩
      · exact (setChunkSizeRun_not_invArg _ _ _ hx).elim
      · simp at hf
    | reset =>
      rcases bindOp_eq_error _ _ _ _ h with hx | ⟨a, s1, hx, hf⟩
      · exact (stSendRequest_fst_ne _ _ _ _ (by rw [hx])).elim
      · simp at hf
    | sendSmartHomeRequest cmd p m =>
      rcases bindOp_eq_error _ _ _ _ h with hx | ⟨a, s1, hx, hf⟩
      · rw [sendSmartHomeRequestRun_invArg _ _ _ _ _ hx]
      · simp at hf
    | enableDummyBytes =>
      simp [runOp, bindOp, enableDummyBytesRun] at h
  · intro act param s s' h
    cases act with
    | setProgramOptions =>
      rcases param with _ | v
      · have hs : s = s' := congrArg Prod.snd h
        rw [← hs]
      · rcases v with _ | _ | _ | str | _ | _ <;>
          try (have hs : s = s' := congrArg Prod.snd h; rw [← hs])
        rw [wmTriggerAction] at h
        rcases hpf : parseFlags programOptionNames str with _ | bits
        · rw [hpf] at h
          have hs : s = s' := congrArg Prod.snd h
          rw [← hs]
        · rw [hpf] at h
          have h1 : wmSetProgramOptions bits s
              = (.error DevErr.invalidArgument, s') := h
          have h2 : (wmSetProgramOptions bits s).1
              = .error DevErr.invalidArgument := by rw [h1]
          rw [wmSetProgramOptions] at h2
          exact (liftProto_fst_ne _ h2).elim
    | setProgramSpinSetting =>
      rcases param with _ | v
      · have hs : s = s' := congrArg Prod.snd h
        rw [← hs]
      · rcases v with _ | _ | _ | str | _ | _ <;>
          try (have hs : s = s' := congrArg Prod.snd h; rw [← hs])
        rw [wmTriggerAction] at h
        rcases hpf : spinSettingNames.find? (fun nb => nb.1 = str) with _ | nb
        · rw [hpf] at h
          have hs : s = s' := congrArg Prod.snd h
          rw [← hs]
        · rw [hpf] at h
          have h1 : wmSetProgramSpinSetting nb.2 s
              = (.error DevErr.invalidArgument, s') := h
          have h2 : (wmSetProgramSpinSetting nb.2 s).1
              = .error DevErr.invalidArgument := by rw [h1]
          rw [wmSetProgramSpinSetting] at h2
          exact (liftProto_fst_ne _ h2).elim
    | startProgram =>
      rcases param with _ | v
      · have h1 : wmStartProgram s = (.error DevErr.invalidArgument, s') := h
        exact (wmStartProgram_fst_ne s (by rw [h1])).elim
      · have hs : s = s' := congrArg Prod.snd h
        rw [← hs]
    | unknown => simp [wmTriggerAction] at h

/-- Witness for `c3_invalid_argument_writes_nothing`: an over-long
`read_memory` and a parameterless `set_program_options` trigger, both
rejected with `InvalidArgument` before any byte reaches the wire. -/
theorem c3_invalid_argument_writes_nothing_witness :
    runOp (.readMemory 0xabcd 65536) (initIntfState [])
        = (.error .invalidArgument, initIntfState [])
    ∧ ((initIntfState []).output = (initIntfState []).output)
    ∧ wmTriggerAction .setProgramOptions none (initIntfState [])
        = (.error .invalidArgument, initIntfState [])
    ∧ ((initIntfState []).output = (initIntfState []).output) :=
  ⟨by rfl,
   c3_invalid_argument_writes_nothing.1 (.readMemory 0xabcd 65536)
     (initIntfState []) (initIntfState []) (by rfl),
   by rfl,
   c3_invalid_argument_writes_nothing.2 .setProgramOptions none
     (initIntfState []) (initIntfState []) (by rfl)⟩

/-! ## Chunk-size frame effect -/

theorem stSend_cs (s : IntfState) (p : List Nat) :
    ((stSend s p).2).chunkSize = s.chunkSize := by
  rcases hx : sendPayloadRun s.chunkSize p s.input with ⟨r, w, rest⟩
  simp [stSend, hx]

theorem stSendRequest_cs (s : IntfState) (cmd param len : Nat) :
    ((stSendRequest s cmd param len).2).chunkSize = s.chunkSize := by
  rw [stSendRequest]
  split <;> simp [stSend_cs]

theorem stReceive_cs (s : IntfState) (n : Nat) :
    ((stReceive s n).2).chunkSize = s.chunkSize := by
  rcases hx : receivePayloadRun s.chunkSize n s.input with ⟨r, w, rest⟩
  simp [stReceive, hx]

theorem stReadByte_cs (s : IntfState) :
    ((stReadByte s).2).chunkSize = s.chunkSize := by
  rw [stReadByte]
  split <;> simp

theorem bindOp_cs {α β : Type} (x : Except ProtoErr α × IntfState)
    (f : α → IntfState → Except ProtoErr β × IntfState) (c : Nat)
    (hx : (x.2).chunkSize = c)
    (hf : ∀ a s1, ((f a s1).2).chunkSize = s1.chunkSize) :
    ((bindOp x f).2).chunkSize = c := by
  rcases x with ⟨r, s⟩
  cases r with
  | ok a =>
    have h1 := hf a s
    simp only [bindOp]
    exact h1.trans hx
  | error e => exact hx

theorem readMemoryRun_cs (addr n : Nat) (s : IntfState) :
    ((readMemoryRun addr n s).2).chunkSize = s.chunkSize := by
  rw [readMemoryRun]
  split
  · rfl
  · apply bindOp_cs
    · split
      · exact stSendRequest_cs ..
      · rfl
    · intro a s1
      apply bindOp_cs
      · exact stSendRequest_cs ..
      · intro a2 s2
        exact stReceive_cs ..

theorem writeMemoryRun_cs (addr : Nat) (p : List Nat) (s : IntfState) :
    ((writeMemoryRun addr p s).2).chunkSize = s.chunkSize := by
  rw [writeMemoryRun]
  split
  · rfl
  · apply bindOp_cs
    · split
      · exact stSendRequest_cs ..
      · rfl
    · intro a s1
      apply bindOp_cs
      · exact stSendRequest_cs ..
      · intro a2 s2
        exact stSend_cs ..

theorem readEepromRun_cs (addr n : Nat) (s : IntfState) :
    ((readEepromRun addr n s).2).chunkSize = s.chunkSize := by
  rw [readEepromRun]
  split
  · rfl
  · apply bindOp_cs
    · exact stSendRequest_cs ..
    · intro a s1
      exact stReceive_cs ..

theorem writeEepromRun_cs (addr : Nat) (p : List Nat) (s : IntfState) :
    ((writeEepromRun addr p s).2).chunkSize = s.chunkSize := by
  rw [writeEepromRun]
  split
  · rfl
  · apply bindOp_cs
    · exact stSendRequest_cs ..
    · intro a s1
      exact stSend_cs ..

theorem sendSmartHomeRequestRun_cs (cmd : Nat) (p : List Nat) (m : Nat)
    (s : IntfState) :
    ((sendSmartHomeRequestRun cmd p m s).2).chunkSize = s.chunkSize := by
  rw [sendSmartHomeRequestRun]
  split
  · rfl
  · apply bindOp_cs
    · exact stSendRequest_cs ..
    · intro a s1
      apply bindOp_cs
      · exact stSend_cs ..
      · intro a2 s2
        exact stReceive_cs ..

theorem querySoftwareIdRun_cs (s : IntfState) :
    ((querySoftwareIdRun s).2).chunkSize = s.chunkSize := by
  rw [querySoftwareIdRun]
  apply bindOp_cs
  · exact stSendRequest_cs ..
  · intro a s1
    rcases hr : stReceive s1 2 with ⟨r, s2⟩
    have h2 := stReceive_cs s1 2
    rw [hr] at h2
    cases r with
    | ok bs => exact h2
    | error e => exact h2

theorem queryMaxBaudRateRun_cs (s : IntfState) :
    ((queryMaxBaudRateRun s).2).chunkSize = s.chunkSize := by
  rw [queryMaxBaudRateRun]
  apply bindOp_cs
  · exact stSendRequest_cs ..
  · intro a s1
    rcases hr : stReceive s1 2 with ⟨r, s2⟩
    have h2 := stReceive_cs s1 2
    rw [hr] at h2
    cases r with
    | ok bs =>
      simp only []
      split <;> exact h2
    | error e => exact h2

theorem jumpToSubroutineRun_cs (addr : Nat) (s : IntfState) :
    ((jumpToSubroutineRun addr s).2).chunkSize = s.chunkSize := by
  rw [jumpToSubroutineRun]
  apply bindOp_cs
  · split
    · exact stSendRequest_cs ..
    · rfl
  · intro a s1
    apply bindOp_cs
    · exact stSendRequest_cs ..
    · intro a2 s2
      rcases hr : stReadByte s2 with ⟨r, s3⟩
      have h2 := stReadByte_cs s2
      rw [hr] at h2
      cases r with
      | ok b => exact h2
      | error e => exact h2

theorem setBaudRateRun_cs (rate : Nat) (s : IntfState) :
    ((setBaudRateRun rate s).2).chunkSize = s.chunkSize := by
  rw [setBaudRateRun]
  split
  · exact stSendRequest_cs ..
  · split
    · exact stSendRequest_cs ..
    · apply bindOp_cs
      · exact stSendRequest_cs ..
      · intro a s1
        rcases hr : stReceive s1 1 with ⟨r, s2⟩
        have h2 := stReceive_cs s1 1
        rw [hr] at h2
        cases r with
        | ok bs => exact h2
        | error e => exact h2

theorem setChunkSizeRun_ok (cs size echoed : Nat) (rest out : List Nat) :
    setChunkSizeRun size
      ⟨cs, false,
        wireAcks cs (requestBytes 0x4a (size % 65536) 0x01)
          ++ frameEnc cs [echoed] ++ rest, out⟩
      = (.ok (), ⟨echoed, false, rest,
          out ++ frameEnc cs (requestBytes 0x4a (size % 65536) 0x01)
            ++ wireAcks cs [echoed]⟩) := by
  rw [setChunkSizeRun]
  rw [show (⟨cs, false,
      wireAcks cs (requestBytes 0x4a (size % 65536) 0x01)
        ++ frameEnc cs [echoed] ++ rest, out⟩ : IntfState)
    = ⟨cs, false, wireAcks cs (requestBytes 0x4a (size % 65536) 0x01)
        ++ (frameEnc cs [echoed] ++ rest), out⟩ by simp]
  rw [stSendRequest_ok]
  simp only [bindOp]
  have hr := stReceive_ok cs false [echoed] rest
    (out ++ framePre false ++ frameEnc cs (requestBytes 0x4a (size % 65536) 0x01))
  simp only [List.length_cons, List.length_nil, Nat.zero_add] at hr
  rw [hr]
  simp [framePre]

/-- **C10** — The interface's `chunk_size` field is 4 when the `Interface` is
constructed, and of all interface operations only `set_chunk_size` modifies
it, replacing it with the single byte echoed by the device; every other
operation (including `send` and `receive`) leaves `chunk_size` unchanged. -/
theorem c10_chunk_size_field :
    (∀ inp, (initIntfState inp).chunkSize = 4)
    ∧ (∀ (op : IntfOp) (s : IntfState), (∀ size, op ≠ .setChunkSize size) →
        ((runOp op s).2).chunkSize = s.chunkSize)
    ∧ (∀ (s : IntfState) (p : List Nat),
        ((stSend s p).2).chunkSize = s.chunkSize)
    ∧ (∀ (s : IntfState) (n : Nat),
        ((stReceive s n).2).chunkSize = s.chunkSize)
    ∧ (∀ cs size echoed rest out,
        runOp (.setChunkSize size)
          ⟨cs, false,
            wireAcks cs (requestBytes 0x4a (size % 65536) 0x01)
              ++ frameEnc cs [echoed] ++ rest, out⟩
          = (.ok .unit, ⟨echoed, false, rest,
              out ++ frameEnc cs (requestBytes 0x4a (size % 65536) 0x01)
                ++ wireAcks cs [echoed]⟩)) := by
  refine ⟨fun _ => rfl, ?_, stSend_cs, stReceive_cs, ?_⟩
  · intro op s hop
    cases op with
    | lock => exact bindOp_cs _ _ _ (stSendRequest_cs ..) (fun a s1 => rfl)
    | querySoftwareId => exact bindOp_cs _ _ _ (querySoftwareIdRun_cs s) (fun a s1 => rfl)
    | unlockReadAccess key => exact bindOp_cs _ _ _ (stSendRequest_cs ..) (fun a s1 => rfl)
    | unlockSmartHomeAccess => exact bindOp_cs _ _ _ (stSendRequest_cs ..) (fun a s1 => rfl)
    | readMemory addr n => exact bindOp_cs _ _ _ (readMemoryRun_cs addr n s) (fun a s1 => rfl)
    | readEeprom addr n => exact bindOp_cs _ _ _ (readEepromRun_cs addr n s) (fun a s1 => rfl)
    | queryMaxBaudRate => exact bindOp_cs _ _ _ (queryMaxBaudRateRun_cs s) (fun a s1 => rfl)
    | unlockFullAccess key => exact bindOp_cs _ _ _ (stSendRequest_cs ..) (fun a s1 => rfl)
    | writeMemory addr p => exact bindOp_cs _ _ _ (writeMemoryRun_cs addr p s) (fun a s1 => rfl)
    | writeEeprom addr p => exact bindOp_cs _ _ _ (writeEepromRun_cs addr p s) (fun a s1 => rfl)
    | jumpToSubroutine addr => exact bindOp_cs _ _ _ (jumpToSubroutineRun_cs addr s) (fun a s1 => rfl)
    | halt => exact bindOp_cs _ _ _ (stSendRequest_cs ..) (fun a s1 => rfl)
    | setBaudRate rate => exact bindOp_cs _ _ _ (setBaudRateRun_cs rate s) (fun a s1 => rfl)
    | setChunkSize size => exact absurd rfl (hop size)
    | reset => exact bindOp_cs _ _ _ (stSendRequest_cs ..) (fun a s1 => rfl)
    | sendSmartHomeRequest cmd p m =>
      exact bindOp_cs _ _ _ (sendSmartHomeRequestRun_cs cmd p m s) (fun a s1 => rfl)
    | enableDummyBytes => rfl
  · intro cs size echoed rest out
    rw [show runOp (.setChunkSize size)
        ⟨cs, false,
          wireAcks cs (requestBytes 0x4a (size % 65536) 0x01)
            ++ frameEnc cs [echoed] ++ rest, out⟩
      = bindOp (setChunkSizeRun size
          ⟨cs, false,
            wireAcks cs (requestBytes 0x4a (size % 65536) 0x01)
              ++ frameEnc cs [echoed] ++ rest, out⟩)
          (fun _ s1 => (.ok .unit, s1)) from rfl]
    rw [setChunkSizeRun_ok]
    rfl

/-- Witness for `c10_chunk_size_field`: `lock` is not `set_chunk_size` and
leaves the chunk size of the freshly constructed interface at 4. -/
theorem c10_chunk_size_field_witness :
    (∀ size, IntfOp.lock ≠ .setChunkSize size)
    ∧ ((runOp .lock (initIntfState [0])).2).chunkSize
        = (initIntfState [0]).chunkSize :=
  ⟨fun _ => by simp,
   c10_chunk_size_field.2.1 .lock (initIntfState [0]) (fun _ => by simp)⟩

/-- **C4** — For the id-629 driver, `start_program` first reads the one-byte
state at memory address `0x00E7`; if and only if that byte equals `0x01` it
writes `0x02` to `0x00E7` and returns success; for every other observed state
value it returns `InvalidState` and performs no write (the transcript ends
after the read). -/
theorem c4_start_program_state_machine (cs st : Nat) (rest out : List Nat)
    (hcs : 1 ≤ cs) (hst : st < 256) :
    (st = 0x01 → wmStartProgram
        ⟨cs, false,
          wireAcks cs (readMemFrame 0x00e7 1) ++ frameEnc cs [st]
            ++ wireAcks cs (writeMemFrame 0x00e7 1) ++ wireAcks cs [0x02]
            ++ rest, out⟩
      = (.ok (), ⟨cs, false, rest,
          out ++ frameEnc cs (readMemFrame 0x00e7 1) ++ wireAcks cs [st]
            ++ frameEnc cs (writeMemFrame 0x00e7 1) ++ frameEnc cs [0x02]⟩))
    ∧ (st ≠ 0x01 → wmStartProgram
        ⟨cs, false,
          wireAcks cs (readMemFrame 0x00e7 1) ++ frameEnc cs [st] ++ rest, out⟩
      = (.error .invalidState, ⟨cs, false, rest,
          out ++ frameEnc cs (readMemFrame 0x00e7 1) ++ wireAcks cs [st]⟩)) := by
  constructor
  · intro h1
    subst h1
    rw [show (⟨cs, false,
        wireAcks cs (readMemFrame 0x00e7 1) ++ frameEnc cs [0x01]
          ++ wireAcks cs (writeMemFrame 0x00e7 1) ++ wireAcks cs [0x02]
          ++ rest, out⟩ : IntfState)
      = ⟨cs, false,
          wireAcks cs (readMemFrame 0x00e7 1) ++ frameEnc cs [0x01]
            ++ (wireAcks cs (writeMemFrame 0x00e7 1)
              ++ (wireAcks cs [0x02] ++ rest)), out⟩ by simp]
    have hrd := readMemoryRun_ok_small cs false 0x00e7 [0x01]
      (wireAcks cs (writeMemFrame 0x00e7 1) ++ (wireAcks cs [0x02] ++ rest))
      out (by simp)
    simp only [List.length_cons, List.length_nil, Nat.zero_add] at hrd
    rw [wmStartProgram, hrd]
    simp only [List.headD_cons, if_pos rfl]
    rw [show (⟨cs, false,
        wireAcks cs (writeMemFrame 0x00e7 1) ++ (wireAcks cs [0x02] ++ rest),
        out ++ framePre false ++ frameEnc cs (readMemFrame 0x00e7 1)
          ++ wireAcks cs [0x01]⟩ : IntfState)
      = ⟨cs, false,
          wireAcks cs (writeMemFrame 0x00e7 1) ++ wireAcks cs [0x02] ++ rest,
          out ++ framePre false ++ frameEnc cs (readMemFrame 0x00e7 1)
            ++ wireAcks cs [0x01]⟩ by simp]
    have hwr := writeMemoryRun_ok_small cs false 0x00e7 [0x02] rest
      (out ++ framePre false ++ frameEnc cs (readMemFrame 0x00e7 1)
        ++ wireAcks cs [0x01]) (by simp)
    simp only [List.length_cons, List.length_nil, Nat.zero_add] at hwr
    rw [hwr, liftProto]
    simp [framePre, List.append_assoc]
  · intro h1
    rw [show (⟨cs, false,
        wireAcks cs (readMemFrame 0x00e7 1) ++ frameEnc cs [st] ++ rest,
        out⟩ : IntfState)
      = ⟨cs, false,
          wireAcks cs (readMemFrame 0x00e7 1) ++ frameEnc cs [st] ++ rest,
          out⟩ from rfl]
    have hrd := readMemoryRun_ok_small cs false 0x00e7 [st] rest out (by simp)
    simp only [List.length_cons, List.length_nil, Nat.zero_add] at hrd
    rw [wmStartProgram, hrd]
    simp only [List.headD_cons, if_neg h1]
    simp [framePre, List.append_assoc]

/-- Witness for `c4_start_program_state_machine` at chunk size 4, state byte
`0x01` (program starts) and state byte `0x00` (`InvalidState`, no write). -/
theorem c4_start_program_state_machine_witness :
    (wmStartProgram
        ⟨4, false,
          wireAcks 4 (readMemFrame 0x00e7 1) ++ frameEnc 4 [0x01]
            ++ wireAcks 4 (writeMemFrame 0x00e7 1) ++ wireAcks 4 [0x02]
            ++ [], []⟩
      = (.ok (), ⟨4, false, [],
          [] ++ frameEnc 4 (readMemFrame 0x00e7 1) ++ wireAcks 4 [0x01]
            ++ frameEnc 4 (writeMemFrame 0x00e7 1) ++ frameEnc 4 [0x02]⟩))
    ∧ (wmStartProgram
        ⟨4, false,
          wireAcks 4 (readMemFrame 0x00e7 1) ++ frameEnc 4 [0x00] ++ [], []⟩
      = (.error .invalidState, ⟨4, false, [],
          [] ++ frameEnc 4 (readMemFrame 0x00e7 1) ++ wireAcks 4 [0x00]⟩)) :=
  ⟨(c4_start_program_state_machine 4 0x01 [] [] (by decide) (by decide)).1 rfl,
   (c4_start_program_state_machine 4 0x00 [] [] (by decide) (by decide)).2
     (by decide)⟩

/-- **C5 counterexample** — the claim says the conversion always yields a
value, saturating to 65535; but at raw value 1 the quotient 442500 exceeds
65535 and the code returns `none` (the `u16` conversion fails) instead of a
saturated `some 65535`. -/
theorem c5_rpm_conversion_cex :
    rpmFromMotorSpeed 1 = none ∧ 65535 < 442500 / 1 := by
  decide

/-- **C5 (amended)** — The tachometer RPM conversion returns `some 0` for raw
inputs `0x0000` and `0xFFFF`; for raw `s` in `[7, 65534]` it returns
`some ⌊442500 / s⌋` (the quotient fits a `u16`), and for `s` in `[1, 6]`,
where the quotient exceeds 65535, it returns `none` rather than saturating. -/
theorem c5_rpm_conversion :
    rpmFromMotorSpeed 0x0000 = some 0
    ∧ rpmFromMotorSpeed 0xffff = some 0
    ∧ (∀ s, 1 ≤ s → s ≤ 65534 →
        (7 ≤ s → rpmFromMotorSpeed s = some (442500 / s))
        ∧ (s ≤ 6 → rpmFromMotorSpeed s = none)) := by
  refine ⟨by decide, by decide, ?_⟩
  intro s h1 h2
  have hne : ¬(s = 0x0000 ∨ s = 0xffff) := by omega
  constructor
  · intro h7
    have hle : 442500 / s ≤ 442500 / 7 := Nat.div_le_div_left h7 (by norm_num)
    have hfits : 442500 / s ≤ 65535 := le_trans hle (by norm_num)
    rw [rpmFromMotorSpeed, if_neg hne, if_pos hfits]
  · intro h6
    have hge : 442500 / 6 ≤ 442500 / s := Nat.div_le_div_left h6 (by omega)
    have h73 : 442500 / 6 = 73750 := by norm_num
    rw [h73] at hge
    have hnle : ¬(442500 / s ≤ 65535) := by omega
    rw [rpmFromMotorSpeed, if_neg hne, if_neg hnle]

/-- Witness for `c5_rpm_conversion` at raw values 10 (quotient fits) and 3
(quotient overflows, `none`). -/
theorem c5_rpm_conversion_witness :
    rpmFromMotorSpeed 10 = some (442500 / 10) ∧ rpmFromMotorSpeed 3 = none :=
  ⟨(c5_rpm_conversion.2.2 10 (by decide) (by decide)).1 (by decide),
   (c5_rpm_conversion.2.2 3 (by decide) (by decide)).2 (by decide)⟩

/-- **C6** — For the id-629 driver,
`trigger_action(ACTION_SET_PROGRAM_OPTIONS, Some(String("Soak | PreWash")))`
parses the flag string against the closed flag set, yielding the bit pattern
`0x10 ||| 0x20 = 0x30`, and writes that single byte to the options byte at
memory address `0x0058` (header `40 58 00 01`, checksum `0x99`, then the data
byte `0x30` with checksum `0x30`); calling the same action with no parameter
returns `InvalidArgument` without any wire traffic. -/
theorem c6_set_program_options_action :
    wmTriggerAction .setProgramOptions (some (.str "Soak | PreWash"))
        ⟨4, false, [0, 0], []⟩
      = (.ok (), ⟨4, false, [],
          [0x40, 0x58, 0x00, 0x01, 0x99, 0x30, 0x30]⟩)
    ∧ parseFlags programOptionNames "Soak | PreWash" = some 0x30
    ∧ wmTriggerAction .setProgramOptions none ⟨4, false, [0, 0], []⟩
      = (.error .invalidArgument, ⟨4, false, [0, 0], []⟩) := by
  refine ⟨?_, ?_, ?_⟩ <;> rfl

/-- **C7 counterexample** — the claim says every decoded display word yields
at least 3 characters; but the word `0x02000000` (digit 1 has code `0x0` with
the special flag set, which has no entry in the MC14489 special table)
decodes to the 2-character string `"00"`. -/
theorem c7_display_contents_cex :
    wmDecodeDisplay 0x02000000 = "00"
    ∧ (wmDecodeDisplay 0x02000000).length = 2 := by
  refine ⟨?_, ?_⟩ <;> rfl

/-- **C7 (amended)** — Every packed 32-bit display word decodes to a string
of at most 6 characters: each of the three 4-bit digit codes contributes a
character only when the MC14489 table (selected by its special bit) has an
entry for it, and up to three dots are inserted per the 3-bit decimal-point
selector; whenever all three digit codes are displayable the string has at
least 3 characters. -/
theorem c7_display_contents (d : Nat) :
    (wmDecodeDisplay d).length ≤ 6
    ∧ (∀ c1 c2 c3 : Char,
        decodeMc14489Digit (d &&& 0x0000000f)
            (decide (d &&& 0x02000000 ≠ 0)) = some c1 →
        decodeMc14489Digit ((d &&& 0x000000f0) >>> 4)
            (decide (d &&& 0x04000000 ≠ 0)) = some c2 →
        decodeMc14489Digit ((d &&& 0x00000f00) >>> 8)
            (decide (d &&& 0x08000000 ≠ 0)) = some c3 →
        3 ≤ (wmDecodeDisplay d).length) := by
  constructor
  · rw [wmDecodeDisplay]
    simp only [String.length]
    exact le_trans (List.length_filterMap_le id _) (by simp)
  · intro c1 c2 c3 h1 h2 h3
    rw [wmDecodeDisplay]
    simp only [h1, h2, h3, String.length]
    split <;> split <;> split <;> simp

/-- Witness for `c7_display_contents` at display word 0 (all three digits
decode to `'0'`, giving the 3-character string `"000"`). -/
theorem c7_display_contents_witness :
    (wmDecodeDisplay 0).length ≤ 6 ∧ 3 ≤ (wmDecodeDisplay 0).length :=
  ⟨(c7_display_contents 0).1,
   (c7_display_contents 0).2 '0' '0' '0' (by rfl) (by rfl) (by rfl)⟩

/-- **C8** — The NTC resistance computed from an 8-bit ADC reading `v` equals
`2150 * v / (256 - v)` in exact (truncating) integer arithmetic; it returns 0
for `v = 0` and is monotone nondecreasing in `v` over `[0, 254]`. -/
theorem c8_ntc_resistance :
    ntcResistanceFromAdc 0 = 0
    ∧ (∀ v w, v ≤ w → w ≤ 254 →
        ntcResistanceFromAdc v ≤ ntcResistanceFromAdc w)
    ∧ (∀ v, v ≤ 254 → ntcResistanceFromAdc v = 2150 * v / (256 - v)) := by
  refine ⟨by decide, ?_, fun v _ => rfl⟩
  intro v w hvw hw
  rw [ntcResistanceFromAdc, ntcResistanceFromAdc]
  exact Nat.div_le_div (by omega) (by omega) (by omega)

/-- Witness for `c8_ntc_resistance`: monotone at `100 ≤ 200` and the formula
at `v = 10`. -/
theorem c8_ntc_resistance_witness :
    ntcResistanceFromAdc 100 ≤ ntcResistanceFromAdc 200
    ∧ ntcResistanceFromAdc 10 = 2150 * 10 / (256 - 10) :=
  ⟨c8_ntc_resistance.2.1 100 200 (by decide) (by decide),
   c8_ntc_resistance.2.2 10 (by decide)⟩

/-- **C9** — The id-419 driver invokes `enable_dummy_bytes()` once at the
start of `initialize`; from that point the interface's boolean dummy-byte
mode is on and every outgoing command frame is preceded by the inert byte
preamble (here: both unlock frames of `initialize` itself, and any command
frame sent afterwards while the flag is set).  The dummy-byte machinery is
modelled from the spec (`Interface::enable_dummy_bytes` is not part of
`lib.rs` as provided). -/
theorem c9_dummy_byte_preamble :
    (initIntfState []).dummyBytes = false
    ∧ id419Initialize ⟨4, false, [0, 0], []⟩
      = (.ok (), ⟨4, true, [],
          dummyPreamble ++ frameEnc 4 (requestBytes 0x20 0xb4ee 0x00)
            ++ dummyPreamble ++ frameEnc 4 (requestBytes 0x32 0x4e83 0x00)⟩)
    ∧ (∀ cs cmd param len rest out,
        stSendRequest
            ⟨cs, true, wireAcks cs (requestBytes cmd param len) ++ rest, out⟩
            cmd param len
          = (.ok (), ⟨cs, true, rest,
              out ++ dummyPreamble ++ frameEnc cs (requestBytes cmd param len)⟩)) := by
  refine ⟨rfl, by rfl, ?_⟩
  intro cs cmd param len rest out
  simpa [framePre] using stSendRequest_ok cs true cmd param len rest out

end FreeMDU
